import Mathlib

/-!
# Mission Control — verification of the task/notification core

Shallow embedding of the openclaw-mission-control Convex backend
(agent directory, task store, auto-assignment engine, mention /
notification fanout, external sync gateway, webhook routes), together
with proofs settling the frozen claims about it.

Conventions of the embedding:
* Convex document ids are opaque strings; we model them as `Nat`.
  `db.patch` targets a record by its id, which we keep in a `rid` field;
  `db.insert` appends to the table list and draws a fresh id from a
  `nextId` counter.  `query().collect()` and `.first()` see records in
  creation (list) order, as Convex does for unindexed scans, and
  index-based point lookups (`withIndex(...).first()`) are modeled as
  `List.find?` on the indexed field.
* JavaScript truthiness on optional strings (`body.x || d`, `if (x)`)
  is modeled by `jsOrStr` / `truthy`: `undefined` and `""` are falsy.
* JS regexes that appear in the source are compiled by hand into
  executable matchers (`Pat.matches`, `scanMentions`) that follow the
  exact semantics of the concrete patterns used
  (`\b` word boundaries, `.*` not crossing line terminators, greedy
  `\w+` runs, global non-overlapping scan).
* Schema fields that no modeled operation reads or writes
  (e.g. `borderColor`, `sessionKey`, timestamps) are omitted from the
  record types; `subscribedAt` timestamps are likewise dropped since
  only membership of the (agent, task) pair is ever consulted.
-/

namespace MissionControl

/-! ## Characters and strings -/

/-- JS `\w` (ASCII word character). -/
def isWordChar (c : Char) : Bool :=
  c.isAlpha || c.isDigit || c = '_'

/-- The character class `[\s\/]` used by the mention regex and the
name-normalisation `replace(/[\s\/]+/g, '')`: a slash or (ASCII)
whitespace. -/
def isSepChar (c : Char) : Bool :=
  c = '/' || c = ' ' || c = '\t' || c = '\n' || c = '\r' ||
  c = '\x0b' || c = '\x0c'

/-- Characters matched by JS `.` (anything but a line terminator). -/
def isDotChar (c : Char) : Bool :=
  !(c = '\n' || c = '\r' || c.val = 0x2028 || c.val = 0x2029)

/-- JS `s.includes(t)` on lists of characters. -/
def containsSeg (t s : List Char) : Bool :=
  s.tails.any (fun suf => t.isPrefixOf suf)

/-- JS `s.includes(t)` on strings. -/
def strContains (s t : String) : Bool :=
  containsSeg t.toList s.toList

/-- ASCII lowercasing of one character (`toLowerCase()`; every string
the source lowercases is ASCII). -/
def lowerChar (c : Char) : Char :=
  if 'A' ≤ c ∧ c ≤ 'Z' then Char.ofNat (c.toNat + 32) else c

/-- `s.toLowerCase()`, executable by structural recursion. -/
def lowerStr (s : String) : String :=
  (s.toList.map lowerChar).asString

/-- `s.trim()`, executable by structural recursion. -/
def trimStr (s : String) : String :=
  (((s.toList.dropWhile Char.isWhitespace).reverse.dropWhile
      Char.isWhitespace).reverse).asString

/-- `parts.join(sep)`. -/
def joinSep (sep : String) : List String → String
  | [] => ""
  | [x] => x
  | x :: xs => x ++ sep ++ joinSep sep xs

/-- JS `s || d` for an optional string: `undefined` and `""` are falsy. -/
def jsOrStr (o : Option String) (d : String) : String :=
  match o with
  | some s => if s = "" then d else s
  | none => d

/-- JS truthiness of an optional string field. -/
def truthy (o : Option String) : Bool :=
  match o with
  | some s => s != ""
  | none => false

/-! ## Agent directory -/

/-- An agent-directory record (`agents` table); fields not consulted by
the modeled operations are omitted. -/
structure Agent where
  id : Nat
  name : String
  role : String
  deriving DecidableEq, Repr

/-- `findAgentByName` (tasks module): case-insensitive match on agent
name or role. -/
def findAgentByName (agents : List Agent) (name : String) : Option Agent :=
  agents.find? (fun a =>
    lowerStr a.name == lowerStr name || lowerStr a.role == lowerStr name)

/-! ## Task store -/

/-- A task record (`tasks` table). -/
structure TaskRec where
  rid : Nat
  title : String
  description : String
  status : String
  assigneeIds : List Nat
  tags : List String
  priority : String
  projectId : Option String
  objectiveId : Option String
  deriving DecidableEq, Repr

/-- An activity-log record (`activities` table). -/
structure Activity where
  type : String
  agentId : Nat
  message : String
  targetId : Option Nat
  deriving DecidableEq, Repr

/-! ## Regex patterns of the auto-assignment rule table

The source's `AGENT_PATTERNS` regexes fall into four shapes, compiled
here into executable matchers over the (already lowercased) search
text:
* `Pat.sub t` — plain `/t/i` substring patterns;
* `Pat.word t` — `/\bt\b/i`;
* `Pat.wordL t` — `/\bt/i` (left boundary only, e.g. `/\bbrand/i`);
* `Pat.seq [a, b, …]` — `/a.*b.*…/i`, where `.*` does not cross a
  line terminator.
-/

inductive Pat where
  | sub (t : String)
  | word (t : String)
  | wordL (t : String)
  | seq (parts : List String)
  deriving DecidableEq, Repr

/-- Is there an occurrence of `t` in `prev :: s`-context respecting the
requested word boundaries?  `prev` is the character just before the
current position (boundary holds at the very start). -/
def boundedOccurs (t : List Char) (bl br : Bool) : Option Char → List Char → Bool
  | prev, s =>
    (((!bl || !((prev.map isWordChar).getD false)) &&
      t.isPrefixOf s &&
      (!br || !((((s.drop t.length).head?).map isWordChar).getD false)))
     ||
     (match s with
      | [] => false
      | c :: cs => boundedOccurs t bl br (some c) cs))

/-- `a₁.*a₂.*…` continuation: once a part has been consumed, the next
part must be reachable through `.`-matchable characters only. -/
def seqCont : List String → List Char → Bool
  | [], _ => true
  | p :: ps, s =>
    (p.toList.isPrefixOf s && seqCont ps (s.drop p.toList.length)) ||
    (match s with
     | [] => false
     | c :: cs => isDotChar c && seqCont (p :: ps) cs)
termination_by parts s => (parts.length, s.length)

/-- Top-level match of `p₁.*p₂.*…` (the leading search is unanchored,
so any characters may precede the first part). -/
def seqMatches (parts : List String) (s : List Char) : Bool :=
  match parts with
  | [] => true
  | p :: ps =>
    s.tails.any (fun suf =>
      p.toList.isPrefixOf suf && seqCont ps (suf.drop p.toList.length))

/-- `pattern.test(searchText)` for the four pattern shapes. -/
def Pat.matches (p : Pat) (s : List Char) : Bool :=
  match p with
  | .sub t => containsSeg t.toList s
  | .word t => boundedOccurs t.toList true true none s
  | .wordL t => boundedOccurs t.toList true false none s
  | .seq parts => seqMatches parts s

/-! ## The auto-assignment rule table (`AGENT_PATTERNS`) -/

structure AgentRule where
  patterns : List Pat
  agentName : String
  deriving DecidableEq, Repr

def uiuxRule : AgentRule :=
  { patterns := [.word "ui", .word "ux", .sub "wireframe", .sub "mockup",
                 .sub "usability", .seq ["user", "flow"], .word "interface",
                 .sub "prototype"],
    agentName := "UI/UX Expert" }

def analystRule : AgentRule :=
  { patterns := [.sub "requirement", .sub "research", .word "analysis",
                 .sub "user stor", .word "spec", .sub "discovery",
                 .seq ["market", "study"]],
    agentName := "Analyst" }

def architectRule : AgentRule :=
  { patterns := [.sub "architect", .seq ["system", "design"], .word "schema",
                 .seq ["api", "design"], .sub "database", .sub "infrastructure",
                 .seq ["tech", "stack"]],
    agentName := "Architect" }

def marketingRule : AgentRule :=
  { patterns := [.sub "marketing", .word "content", .word "seo",
                 .sub "campaign", .wordL "brand", .seq ["social", "media"],
                 .word "blog", .sub "newsletter"],
    agentName := "Marketing" }

def salesRule : AgentRule :=
  { patterns := [.word "sales", .sub "pricing", .sub "proposal", .word "gtm",
                 .seq ["go", "to", "market"], .sub "revenue", .word "icp"],
    agentName := "Sales Expert" }

def testerRule : AgentRule :=
  { patterns := [.word "qa", .seq ["quality", "assurance"],
                 .seq ["test", "plan"], .seq ["test", "case"],
                 .seq ["bug", "report"], .seq ["security", "audit"],
                 .sub "validation", .word "testing"],
    agentName := "Tester" }

def coderRule : AgentRule :=
  { patterns := [.sub "implement", .word "code", .sub "develop", .word "build",
                 .word "fix", .sub "deploy", .sub "devops", .word "bug",
                 .sub "feature", .sub "refactor"],
    agentName := "Coder" }

/-- The ordered rule table; order is significant (first match wins). -/
def AGENT_PATTERNS : List AgentRule :=
  [uiuxRule, analystRule, architectRule, marketingRule, salesRule,
   testerRule, coderRule]

/-! ## Auto-assignment engine (`autoAssignAgent`) -/

/-- `` `${title} ${description} ${tags.join(" ")}`.toLowerCase() `` -/
def searchText (title description : String) (tags : List String) : List Char :=
  (lowerStr (title ++ " " ++ description ++ " " ++ joinSep " " tags)).toList

/-- The inner `for (const pattern of patterns)` loop: on each matching
pattern resolve the rule's agent name; an unresolvable agent falls
through to the next pattern. -/
def patScan (agents : List Agent) (st : List Char) (agentName : String) :
    List Pat → Option Nat
  | [] => none
  | p :: ps =>
    if p.matches st then
      match findAgentByName agents agentName with
      | some ag => some ag.id
      | none => patScan agents st agentName ps
    else patScan agents st agentName ps

/-- The outer `for (const { patterns, agentName } of AGENT_PATTERNS)`
loop; after the table is exhausted, default to the agent named
"Theeb" (or no assignment when absent). -/
def assignLoop (agents : List Agent) (st : List Char) : List AgentRule → Option Nat
  | [] => (findAgentByName agents "Theeb").map (fun ag => ag.id)
  | r :: rs =>
    match patScan agents st r.agentName r.patterns with
    | some i => some i
    | none => assignLoop agents st rs

/-- `autoAssignAgent(ctx, title, description, tags)`. -/
def autoAssignAgent (agents : List Agent) (title description : String)
    (tags : List String) : Option Nat :=
  assignLoop agents (searchText title description tags) AGENT_PATTERNS

/-! ## `createTaskWithAgent` (HTTP task creation with name resolution) -/

/-- A task table plus the fresh-id counter of the underlying store. -/
structure TaskStore where
  tasks : List TaskRec
  nextId : Nat
  deriving DecidableEq, Repr

structure CreateArgs where
  title : String
  description : String
  status : Option String
  tags : Option (List String)
  priority : Option String
  assignee : Option String
  projectId : Option String
  objectiveId : Option String
  deriving DecidableEq, Repr

structure CreateResp where
  success : Bool
  taskId : Nat
  assignee : Option String
  deriving DecidableEq, Repr

/-- `createTaskWithAgent`: resolve an explicit assignee name, otherwise
auto-assign; insert the task; report the assignee's name. -/
def createTaskWithAgent (agents : List Agent) (store : TaskStore)
    (args : CreateArgs) : TaskStore × CreateResp :=
  let tags := args.tags.getD []
  let resolved : List Nat :=
    if truthy args.assignee then
      match findAgentByName agents (args.assignee.getD "") with
      | some ag => [ag.id]
      | none => []
    else []
  let assigneeIds : List Nat :=
    if resolved.isEmpty then
      match autoAssignAgent agents args.title args.description tags with
      | some i => [i]
      | none => []
    else resolved
  let newTask : TaskRec :=
    { rid := store.nextId
      title := args.title
      description := args.description
      status := jsOrStr args.status "inbox"
      assigneeIds := assigneeIds
      tags := tags
      priority := jsOrStr args.priority "normal"
      projectId := args.projectId
      objectiveId := args.objectiveId }
  let assigneeName : Option String :=
    match assigneeIds.head? with
    | some i =>
      match (agents.find? (fun a => a.id == i)).map (fun a => a.name) with
      | some n => if n = "" then none else some n
      | none => none
    | none => none
  (⟨store.tasks ++ [newTask], store.nextId + 1⟩,
   ⟨true, store.nextId, assigneeName⟩)

/-! ## `fixUnassignedTasks` (maintenance operation) -/

structure FixItem where
  taskId : Nat
  title : String
  assignedTo : Option String
  deriving DecidableEq, Repr

structure FixResp where
  totalUnassigned : Nat
  fixed : Nat
  results : List FixItem
  deriving DecidableEq, Repr

/-- `db.patch(rid, { assigneeIds })` on a task list. -/
def patchAssignees (ts : List TaskRec) (rid : Nat) (ids : List Nat) : List TaskRec :=
  ts.map (fun t => if t.rid == rid then { t with assigneeIds := ids } else t)

/-- `agent?.name || null` for the per-task report line. -/
def reportedName (agents : List Agent) (i : Nat) : Option String :=
  match (agents.find? (fun a => a.id == i)).map (fun a => a.name) with
  | some n => if n = "" then none else some n
  | none => none

/-- One iteration of the `for (const task of unassignedTasks)` loop:
patch the task when auto-assignment found an agent, and append the
report line. -/
def fixStep (agents : List Agent) (acc : List TaskRec × List FixItem)
    (t : TaskRec) : List TaskRec × List FixItem :=
  match autoAssignAgent agents t.title t.description t.tags with
  | some i =>
    (patchAssignees acc.1 t.rid [i],
     acc.2 ++ [⟨t.rid, t.title, reportedName agents i⟩])
  | none => (acc.1, acc.2 ++ [⟨t.rid, t.title, none⟩])

/-- `fixUnassignedTasks`: auto-assign every task whose assignee list is
empty, reporting per-task outcomes and aggregate counts. -/
def fixUnassignedTasks (agents : List Agent) (tasks : List TaskRec) :
    List TaskRec × FixResp :=
  let unassigned := tasks.filter (fun t => t.assigneeIds.isEmpty)
  let out := unassigned.foldl (fixStep agents) (tasks, [])
  (out.1,
   { totalUnassigned := unassigned.length
     fixed := (out.2.filter (fun r => r.assignedTo.isSome)).length
     results := out.2 })

/-- The store-component of the `fixUnassignedTasks` loop in isolation
(the patches applied by the iterations over `us`). -/
def applyFixes (agents : List Agent) (us : List TaskRec) (ts : List TaskRec) :
    List TaskRec :=
  us.foldl (fun acc t =>
    match autoAssignAgent agents t.title t.description t.tags with
    | some i => patchAssignees acc t.rid [i]
    | none => acc) ts

/-- The effect of the `fixUnassignedTasks` patches on one record. -/
def fixOne (agents : List Agent) (us : List TaskRec) (t : TaskRec) : TaskRec :=
  us.foldl (fun x u =>
    if x.rid == u.rid then
      match autoAssignAgent agents u.title u.description u.tags with
      | some i => { x with assigneeIds := [i] }
      | none => x
    else x) t

/-- The report line `fixUnassignedTasks` emits for one unassigned task. -/
def fixReport (agents : List Agent) (t : TaskRec) : FixItem :=
  ⟨t.rid, t.title,
   match autoAssignAgent agents t.title t.description t.tags with
   | some i => reportedName agents i
   | none => none⟩

/-! ## `updateStatusByExternalId` -/

structure UpdArgs where
  taskId : String
  status : String
  assignee : Option String
  deriving DecidableEq, Repr

/-- Result record of `updateStatusByExternalId` (either the not-found
shape `{success:false, error}` or the success shape). -/
inductive UpdResp where
  | notFound (error : String)
  | ok (taskId : String) (internalId : Nat) (status : String)
  deriving DecidableEq, Repr

/-- The `statusMap[...] || args.status` normalisation of upper-snake
statuses to the canonical lowercase enum. -/
def normalizeStatus (s : String) : String :=
  if s = "INBOX" then "inbox"
  else if s = "ASSIGNED" then "assigned"
  else if s = "IN_PROGRESS" then "in_progress"
  else if s = "DONE" then "done"
  else s

/-- The optional-assignee resolution of `updateStatusByExternalId`:
only a provided name that resolves (case-insensitively, by name or
role) replaces the assignee list. -/
def resolveAssignees (agents : List Agent) (assignee : Option String)
    (old : List Nat) : List Nat :=
  if truthy assignee then
    match agents.find? (fun a =>
        lowerStr a.name == lowerStr (assignee.getD "") ||
        lowerStr a.role == lowerStr (assignee.getD "")) with
    | some ag => [ag.id]
    | none => old
  else old

/-- `updateStatusByExternalId`: locate the task by title-substring
containment of the external id, patch status (and, when resolvable,
assignees), and log an `[API]` activity. -/
def updateStatusByExternalId (agents : List Agent) (tasks : List TaskRec)
    (activities : List Activity) (args : UpdArgs) :
    List TaskRec × List Activity × UpdResp :=
  match tasks.find? (fun t => strContains t.title args.taskId) with
  | none => (tasks, activities, .notFound ("Task not found: " ++ args.taskId))
  | some task =>
    let normalizedStatus := normalizeStatus args.status
    let newAssignees := resolveAssignees agents args.assignee task.assigneeIds
    let tasks' := tasks.map (fun t =>
      if t.rid == task.rid then
        { t with status := normalizedStatus, assigneeIds := newAssignees }
      else t)
    let systemAgent :=
      match agents.find? (fun a => strContains (lowerStr a.name) "theeb") with
      | some a => some a
      | none => agents.head?
    let activities' :=
      match systemAgent with
      | some sa => activities ++
          [⟨"status_update", sa.id,
            "[API] Updated \"" ++ task.title ++ "\" to " ++ normalizedStatus,
            some task.rid⟩]
      | none => activities
    (tasks', activities', .ok args.taskId task.rid normalizedStatus)

/-! ## `syncObjectives` (external sync gateway) -/

/-- An objectives record (`objectives` table); `progress` is a JS
number, modeled as `Int` (no arithmetic is performed on it). -/
structure ObjRec where
  rid : Nat
  objectiveId : String
  title : String
  description : String
  status : String
  progress : Int
  priority : String
  targetDate : Option String
  completedDate : Option String
  blockers : Option String
  tenantId : Option String
  deriving DecidableEq, Repr

/-- One element of the `/objectives/sync` payload. -/
structure ObjPayload where
  objectiveId : String
  title : String
  description : String
  status : String
  progress : Int
  priority : String
  targetDate : Option String
  completedDate : Option String
  blockers : Option String
  tenantId : Option String
  deriving DecidableEq, Repr

structure ObjStore where
  objs : List ObjRec
  nextId : Nat
  deriving DecidableEq, Repr

structure SyncResp where
  created : Nat
  updated : Nat
  objectives : List String
  deriving DecidableEq, Repr

/-- One iteration of the upsert loop: look up by external
`objectiveId`; patch every synced field (the external id itself and the
internal id are not touched) or insert a fresh record. -/
def syncObjStep (acc : ObjStore × SyncResp) (o : ObjPayload) : ObjStore × SyncResp :=
  match acc.1.objs.find? (fun r => r.objectiveId == o.objectiveId) with
  | some existing =>
    (⟨acc.1.objs.map (fun r =>
        if r.rid == existing.rid then
          { r with title := o.title, description := o.description,
                   status := o.status, progress := o.progress,
                   priority := o.priority, targetDate := o.targetDate,
                   completedDate := o.completedDate, blockers := o.blockers,
                   tenantId := o.tenantId }
        else r),
      acc.1.nextId⟩,
     { acc.2 with updated := acc.2.updated + 1,
                  objectives := acc.2.objectives ++ [o.objectiveId] })
  | none =>
    (⟨acc.1.objs ++
        [⟨acc.1.nextId, o.objectiveId, o.title, o.description, o.status,
          o.progress, o.priority, o.targetDate, o.completedDate, o.blockers,
          o.tenantId⟩],
      acc.1.nextId + 1⟩,
     { acc.2 with created := acc.2.created + 1,
                  objectives := acc.2.objectives ++ [o.objectiveId] })

/-- `syncObjectives`: upsert an array of externally-identified
objectives, counting created vs updated. -/
def syncObjectives (store : ObjStore) (payload : List ObjPayload) :
    ObjStore × SyncResp :=
  payload.foldl syncObjStep (store, ⟨0, 0, []⟩)

/-! ## `syncPlannerState` (singleton planner state) -/

/-- The planner-state record; `iterationCount`/`costToday` are JS
numbers, modeled as `Int` (only stored, never computed with). -/
structure PRec where
  rid : Nat
  status : String
  lastRun : String
  iterationCount : Int
  costToday : Int
  costResetDate : String
  currentObjective : Option String
  nextTask : Option String
  waitingApproval : List (String × String)
  tenantId : Option String
  deriving DecidableEq, Repr

structure PArgs where
  status : String
  lastRun : String
  iterationCount : Int
  costToday : Int
  costResetDate : String
  currentObjective : Option String
  nextTask : Option String
  waitingApproval : List (String × String)
  tenantId : Option String
  deriving DecidableEq, Repr

structure PStore where
  recs : List PRec
  nextId : Nat
  deriving DecidableEq, Repr

/-- `syncPlannerState`: `query("plannerState").first()`; patch the
existing record, or insert the first one. -/
def syncPlannerState (store : PStore) (args : PArgs) : PStore × String :=
  match store.recs.head? with
  | some existing =>
    (⟨store.recs.map (fun r =>
        if r.rid == existing.rid then
          { r with status := args.status, lastRun := args.lastRun,
                   iterationCount := args.iterationCount,
                   costToday := args.costToday,
                   costResetDate := args.costResetDate,
                   currentObjective := args.currentObjective,
                   nextTask := args.nextTask,
                   waitingApproval := args.waitingApproval,
                   tenantId := args.tenantId }
        else r),
      store.nextId⟩,
     "updated")
  | none =>
    (⟨store.recs ++
        [⟨store.nextId, args.status, args.lastRun, args.iterationCount,
          args.costToday, args.costResetDate, args.currentObjective,
          args.nextTask, args.waitingApproval, args.tenantId⟩],
      store.nextId + 1⟩,
     "created")

/-- A store with no planner-state record yet. -/
def emptyPStore : PStore := ⟨[], 0⟩

/-- Run a sequence of `syncPlannerState` calls, collecting the
returned `action` strings. -/
def runPlannerSyncs (store : PStore) : List PArgs → PStore × List String
  | [] => (store, [])
  | a :: rest =>
    let r := syncPlannerState store a
    let r' := runPlannerSyncs r.1 rest
    (r'.1, r.2 :: r'.2)

/-! ## Mention parsing (`/@(\w+(?:[\/\s]\w+)?)/g`)

Global scan for `@` followed by a greedy `\w+` run, optionally
followed by exactly one `[\/\s]` separator and a second greedy `\w+`
run.  `content.match(...)` returns the full matches; the handler then
strips the `@` (matches never overlap, and an `@` not followed by a
word character yields no match at that position). -/

/-- Does the list start with a word character? -/
def headIsWord : List Char → Bool
  | c :: _ => isWordChar c
  | [] => false

/-- Consume one mention body (the scanner sits just after an `@` whose
next character is a word character): return the matched name (without
the `@`) and the unconsumed remainder. -/
def grabMention (cs : List Char) : String × List Char :=
  let w1 := cs.takeWhile isWordChar
  let r1 := cs.dropWhile isWordChar
  match r1 with
  | s :: r2 =>
    if isSepChar s && headIsWord r2 then
      ((w1 ++ s :: r2.takeWhile isWordChar).asString, r2.dropWhile isWordChar)
    else (w1.asString, r1)
  | [] => (w1.asString, [])

theorem grabMention_rest_le (cs : List Char) :
    (grabMention cs).2.length ≤ cs.length := by
  unfold grabMention
  have h1 : (cs.dropWhile isWordChar).length ≤ cs.length :=
    (cs.dropWhile_sublist isWordChar).length_le
  cases hr : cs.dropWhile isWordChar with
  | nil => simp
  | cons s r2 =>
    by_cases hs : (isSepChar s && headIsWord r2) = true
    · simp only [hs, if_true]
      have h2 : (r2.dropWhile isWordChar).length ≤ r2.length :=
        (r2.dropWhile_sublist isWordChar).length_le
      have : r2.length + 1 ≤ cs.length := by
        have := h1
        rw [hr] at this
        simpa using this
      omega
    · simp only [hs, if_false]
      have : (s :: r2).length ≤ cs.length := hr ▸ h1
      simpa using this

/-- The scan loop, structurally recursive on a fuel bounded by the
input length (each step consumes at least one character, and
`grabMention_rest_le` shows the remainder never grows, so fuel
`cs.length` is always sufficient and the `0` case is unreachable). -/
def scanMentionsAux : Nat → List Char → List String
  | 0, _ => []
  | _ + 1, [] => []
  | f + 1, c :: cs =>
    if c = '@' && headIsWord cs then
      (grabMention cs).1 :: scanMentionsAux f (grabMention cs).2
    else scanMentionsAux f cs

/-- The list of mention names produced by the global regex scan. -/
def scanMentions (cs : List Char) : List String :=
  scanMentionsAux cs.length cs

/-! ## Message send (`messages.send`, part with the owner tier)

The `messages.send` mutation: insert the message and a `commented`
activity, auto-subscribe the sender, then fan out notifications in
three tiers — the owner ("Sami") tier over task assignees, the
`@mention` tier (with `@all` wildcard), and the subscriber tier, the
latter skipping agents recorded in `notifiedAgentIds` during the
mention tier.  The variant of `send` in `convex/messages.ts` is this
function minus the owner tier. -/

/-- The owner's Convex agent id (an opaque 32-character string in the
source; modeled as a distinguished numeral — `senderIdStr.includes(...)`
between two full-length ids amounts to equality). -/
def SAMI_AGENT_ID : Nat := 801804

/-- `sender?.name || "Someone"` prefix of the fanout message texts. -/
def senderLabel (senderName : Option String) : String :=
  jsOrStr senderName "Someone"

/-- Content of the owner-tier "awaiting your response" notification. -/
def samiMsg (title : String) : String :=
  "Sami commented on \"" ++ title ++ "\", awaiting your response"

/-- Content of the mention-tier notification. -/
def mentionMsg (senderName : Option String) (title content : String) : String :=
  senderLabel senderName ++ " mentioned you in \"" ++ title ++ "\": " ++ content

/-- Content of the subscriber-tier notification. -/
def subscribedMsg (senderName : Option String) (title content : String) : String :=
  senderLabel senderName ++ " posted in \"" ++ title ++ "\" (subscribed): " ++ content

/-- A notification record (`notifications` table); `delivered` is
always inserted as `false` and omitted. -/
structure Notif where
  recipient : Nat
  content : String
  deriving DecidableEq, Repr

/-- `name.toLowerCase().replace(/[\s\/]+/g, '')`. -/
def stripName (s : String) : String :=
  ((lowerStr s).toList.filter (fun c => !isSepChar c)).asString

/-- The mention-target lookup: exact case-insensitive name match, or
match after stripping whitespace and slashes. -/
def mentionFind (agents : List Agent) (name : String) : Option Agent :=
  agents.find? (fun a =>
    lowerStr a.name == lowerStr name || stripName a.name == stripName name)

/-- Mutable state threaded through the mention loop: notifications
inserted so far, the `notifiedAgentIds` set (as a list), and the
subscription set for the task. -/
structure MState where
  notifs : List Notif
  notified : List Nat
  subs : List Nat
  deriving DecidableEq, Repr

/-- Notify one mention target: insert the notification, record the id
in `notifiedAgentIds`, and auto-subscribe if not yet subscribed. -/
def notifyTarget (senderName : Option String) (title content : String)
    (st : MState) (i : Nat) : MState :=
  { notifs := st.notifs ++ [⟨i, mentionMsg senderName title content⟩]
    notified := st.notified ++ [i]
    subs := if st.subs.contains i then st.subs else st.subs ++ [i] }

/-- One iteration of the `for (const mention of mentions)` loop. -/
def mentionStep (agents : List Agent) (senderId : Nat)
    (senderName : Option String) (title content : String)
    (st : MState) (m : String) : MState :=
  let name := trimStr m
  if lowerStr name == "all" then
    agents.foldl (fun st2 ag =>
      if ag.id != senderId then notifyTarget senderName title content st2 ag.id
      else st2) st
  else
    match mentionFind agents name with
    | some ag =>
      if ag.id != senderId then notifyTarget senderName title content st ag.id
      else st
    | none => st

/-- Everything `send` appends to the store (scoped to the one task the
message belongs to; `subs` is the task's final subscriber list). -/
structure SendOut where
  messages : List (Nat × String)
  activities : List Activity
  notifs : List Notif
  subs : List Nat
  deriving DecidableEq, Repr

/-- `senderIdStr.includes(SAMI_AGENT_ID) || sender?.name === "Sami"`. -/
def isOwnerSender (agents : List Agent) (senderId : Nat) : Bool :=
  senderId == SAMI_AGENT_ID ||
  ((agents.find? (fun a => a.id == senderId)).map (fun a => a.name)) == some "Sami"

/-- `messages.send` (the variant with the owner tier): the task record
is the one `db.get(args.taskId)` returned; `subs0` is the task's
subscriber list before the call. -/
def send (agents : List Agent) (task : TaskRec) (senderId : Nat)
    (content : String) (subs0 : List Nat) : SendOut :=
  let senderName := (agents.find? (fun a => a.id == senderId)).map (fun a => a.name)
  let subs1 := if subs0.contains senderId then subs0 else subs0 ++ [senderId]
  let ownerNotifs :=
    if isOwnerSender agents senderId then
      (task.assigneeIds.filter (fun i => i != senderId)).map
        (fun i => (⟨i, samiMsg task.title⟩ : Notif))
    else []
  let ms := scanMentions content.toList
  let mst := ms.foldl (mentionStep agents senderId senderName task.title content)
    ⟨[], [], subs1⟩
  let subNotifs :=
    (mst.subs.filter (fun i => i != senderId && !mst.notified.contains i)).map
      (fun i => (⟨i, subscribedMsg senderName task.title content⟩ : Notif))
  { messages := [(senderId, content)]
    activities := [⟨"message", senderId, "commented on \"" ++ task.title ++ "\"",
                    some task.rid⟩]
    notifs := ownerNotifs ++ mst.notifs ++ subNotifs
    subs := mst.subs }

/-- The resolved targets of one mention token (ids notified by the
mention tier for that token, in insertion order). -/
def mentionResolved (agents : List Agent) (senderId : Nat) (m : String) : List Nat :=
  let name := trimStr m
  if lowerStr name == "all" then
    (agents.filter (fun ag => ag.id != senderId)).map (fun ag => ag.id)
  else
    match mentionFind agents name with
    | some ag => if ag.id != senderId then [ag.id] else []
    | none => []

/-- All resolved mention targets of a token list, in insertion order. -/
def mentionTargets (agents : List Agent) (senderId : Nat) : List String → List Nat
  | [] => []
  | m :: ms => mentionResolved agents senderId m ++ mentionTargets agents senderId ms

/-! ## HTTP webhook routes (`http.ts`)

JSON response bodies are modeled explicitly so their exact shape can be
stated.  A handler's `try/catch` boundary is modeled by running the
handler on an `Except String body`: the `error` side stands for a
thrown error (e.g. a JSON parse failure), whose message the catch block
wraps into the route's 500 response. -/

inductive Json where
  | str (s : String)
  | bool (b : Bool)
  | num (n : Int)
  | obj (fields : List (String × Json))
  deriving Repr

/-- Field lookup on a JSON object. -/
def Json.lookup (j : Json) (k : String) : Option Json :=
  match j with
  | .obj fields => List.lookup k fields
  | _ => none

structure HttpResp where
  status : Nat
  body : Json

/-- The uniform error body `{success:false, error}` used by all routes
except `/documents/upload`. -/
def errBody (e : String) : Json :=
  .obj [("success", .bool false), ("error", .str e)]

/-- JSON serialisation of an `updateStatusByExternalId` result. -/
def updRespJson (r : UpdResp) : Json :=
  match r with
  | .notFound e => .obj [("success", .bool false), ("error", .str e)]
  | .ok taskId internalId status =>
    .obj [("success", .bool true), ("taskId", .str taskId),
          ("internalId", .num internalId), ("status", .str status)]

/-- Parsed request body of `/tasks/update` (absent JSON fields are
`none`). -/
structure TUBody where
  taskId : Option String
  status : Option String
  assignee : Option String

def validStatuses : List String :=
  ["INBOX", "ASSIGNED", "IN_PROGRESS", "DONE",
   "inbox", "assigned", "in_progress", "review", "done", "archived"]

/-- The `/tasks/update` route handler. -/
def tasksUpdateRoute (agents : List Agent) (tasks : List TaskRec)
    (activities : List Activity) (req : Except String TUBody) :
    HttpResp × List TaskRec × List Activity :=
  match req with
  | .error m => (⟨500, errBody m⟩, tasks, activities)
  | .ok body =>
    if !(truthy body.taskId) || !(truthy body.status) then
      (⟨400, errBody "Missing required fields: taskId and status"⟩,
       tasks, activities)
    else if !(validStatuses.contains (body.status.getD "")) then
      (⟨400, errBody ("Invalid status. Valid values: " ++
                      joinSep ", " validStatuses)⟩,
       tasks, activities)
    else
      let r := updateStatusByExternalId agents tasks activities
        ⟨body.taskId.getD "", body.status.getD "", body.assignee⟩
      match r.2.2 with
      | .notFound e => (⟨404, updRespJson (.notFound e)⟩, r.1, r.2.1)
      | .ok a b c => (⟨200, updRespJson (.ok a b c)⟩, r.1, r.2.1)

/-- A document record (`documents` table). -/
structure DocRec where
  rid : Nat
  title : String
  content : String
  type : String
  path : Option String
  taskId : Option Nat
  createdByAgentId : Nat
  deriving DecidableEq, Repr

structure DocStore where
  docs : List DocRec
  nextId : Nat
  deriving DecidableEq, Repr

/-- Modelled from the spec: the `documents.create` mutation (its module
is not among the provided sources; §3/§6 and the schema describe it as
inserting a document record with the given fields) — append to the
`documents` table, returning the new id. -/
def documentsCreate (store : DocStore) (title content type : String)
    (path : Option String) (taskId : Option Nat) (agentId : Nat) :
    DocStore × Nat :=
  (⟨store.docs ++ [⟨store.nextId, title, content, type, path, taskId, agentId⟩],
    store.nextId + 1⟩,
   store.nextId)

/-- Parsed request body of `/documents/upload`. -/
structure DUBody where
  title : Option String
  content : Option String
  type : Option String
  path : Option String
  taskId : Option String
  agentName : Option String

/-- The upload handler's agent resolution: match the provided name
case-insensitively (an absent name matches nobody, as comparing with
JS `undefined` is always false), defaulting to the first agent. -/
def uploadAgent (agents : List Agent) (agentName : Option String) : Option Agent :=
  match (match agentName with
         | some n => agents.find? (fun a => lowerStr a.name == lowerStr n)
         | none => none) with
  | some a => some a
  | none => agents.head?

/-- The `/documents/upload` route handler.  `agents` is the result of
the `queries.listAgents` query (the agent directory), `tasks` of
`queries.listTasks`.  Note its error bodies carry only `error`, without
the `success:false` flag the other routes attach. -/
def documentsUploadRoute (agents : List Agent) (tasks : List TaskRec)
    (store : DocStore) (req : Except String DUBody) : HttpResp × DocStore :=
  match req with
  | .error m => (⟨500, .obj [("error", .str m)]⟩, store)
  | .ok b =>
    if !(truthy b.title) || !(truthy b.content) || !(truthy b.type) then
      (⟨400, .obj [("error", .str "Missing required fields: title, content, type")]⟩,
       store)
    else
      match uploadAgent agents b.agentName with
      | none => (⟨404, .obj [("error", .str "No agents found")]⟩, store)
      | some ag =>
        let resolvedTaskId :=
          if truthy b.taskId then
            (tasks.find? (fun t => strContains t.title (b.taskId.getD ""))).map
              (fun t => t.rid)
          else none
        let r := documentsCreate store (b.title.getD "") (b.content.getD "")
          (b.type.getD "") b.path resolvedTaskId ag.id
        (⟨200, .obj ([("success", .bool true), ("documentId", .num r.2)] ++
            (match resolvedTaskId with
             | some t => [("taskId", .num t)]
             | none => []))⟩,
         r.1)

/-! ## Lemmas about the auto-assignment engine -/

/-- The inner pattern loop succeeds iff some pattern matches and the
rule's agent resolves, returning that agent's id. -/
theorem patScan_eq (agents : List Agent) (st : List Char) (an : String)
    (ps : List Pat) :
    patScan agents st an ps =
      if ps.any (fun p => p.matches st) && (findAgentByName agents an).isSome then
        (findAgentByName agents an).map (fun ag => ag.id)
      else none := by
  induction ps with
  | nil => simp [patScan]
  | cons p ps ih =>
    by_cases hp : p.matches st = true
    · cases hf : findAgentByName agents an with
      | none => simp [patScan, hp, hf, ih]
      | some ag => simp [patScan, hp, hf]
    · simp [patScan, hp, ih]

/-- The outer rule loop returns the agent of the first rule that both
matches and resolves, and otherwise the "Theeb" fallback. -/
theorem assignLoop_eq (agents : List Agent) (st : List Char)
    (rs : List AgentRule) :
    assignLoop agents st rs =
      match rs.find? (fun r =>
          r.patterns.any (fun p => p.matches st) &&
          (findAgentByName agents r.agentName).isSome) with
      | some r => (findAgentByName agents r.agentName).map (fun ag => ag.id)
      | none => (findAgentByName agents "Theeb").map (fun ag => ag.id) := by
  induction rs with
  | nil => simp [assignLoop]
  | cons r rs ih =>
    simp only [assignLoop, patScan_eq]
    rw [List.find?_cons]
    by_cases h : (r.patterns.any (fun p => p.matches st) &&
        (findAgentByName agents r.agentName).isSome) = true
    · cases hf : findAgentByName agents r.agentName with
      | none => rw [hf] at h; simp at h
      | some ag =>
        rw [hf] at h
        simp only [Option.isSome_some, Bool.and_true] at h
        simp [h, hf]
    · have h' : (r.patterns.any (fun p => p.matches st) &&
          (findAgentByName agents r.agentName).isSome) = false := by
        rwa [Bool.not_eq_true] at h
      simp [h', ih]

/-- C9 — In the auto-assignment engine, a rule whose pattern matches
but whose named agent does not resolve in the directory is skipped
rather than terminating the search: the engine returns the agent of
the first rule (in table order) with a matching pattern *and* a
resolvable agent, and the "Theeb" fallback (or no owner) is reached
exactly when no such rule exists. -/
theorem autoAssign_first_resolvable_rule (agents : List Agent)
    (title description : String) (tags : List String) :
    autoAssignAgent agents title description tags =
      match AGENT_PATTERNS.find? (fun r =>
          r.patterns.any (fun p => p.matches (searchText title description tags)) &&
          (findAgentByName agents r.agentName).isSome) with
      | some r => (findAgentByName agents r.agentName).map (fun ag => ag.id)
      | none => (findAgentByName agents "Theeb").map (fun ag => ag.id) := by
  unfold autoAssignAgent
  exact assignLoop_eq agents (searchText title description tags) AGENT_PATTERNS

/-- C3 — For task text matching both a UI/UX-rule pattern and the
Coder rule's `\bbuild\b` pattern, with agents resolving for both
rules, the engine returns the UI/UX agent (first rule in table order)
and never the Coder agent. -/
theorem autoAssign_uiux_before_coder (agents : List Agent)
    (title description : String) (tags : List String) (a c : Agent)
    (hui : uiuxRule.patterns.any
      (fun p => p.matches (searchText title description tags)) = true)
    (hbuild : (Pat.word "build").matches (searchText title description tags) = true)
    (hua : findAgentByName agents "UI/UX Expert" = some a)
    (hc : findAgentByName agents "Coder" = some c) :
    autoAssignAgent agents title description tags = some a.id ∧
    (a.id ≠ c.id → autoAssignAgent agents title description tags ≠ some c.id) := by
  have h1 : autoAssignAgent agents title description tags = some a.id := by
    unfold autoAssignAgent AGENT_PATTERNS
    have hcond : (uiuxRule.patterns.any
        (fun p => p.matches (searchText title description tags)) &&
        (findAgentByName agents uiuxRule.agentName).isSome) = true := by
      have : uiuxRule.agentName = "UI/UX Expert" := rfl
      rw [this, hua, hui]
      rfl
    simp only [assignLoop, patScan_eq, hcond, if_true]
    have : uiuxRule.agentName = "UI/UX Expert" := rfl
    rw [this, hua]
    rfl
  refine ⟨h1, fun hne hceq => ?_⟩
  rw [h1] at hceq
  exact hne (Option.some_injective _ hceq)

/-- Witness for C3 at a concrete directory and task text. -/
theorem autoAssign_uiux_before_coder_witness :
    (uiuxRule.patterns.any (fun p =>
      p.matches (searchText "build the ui page" "" [])) = true) ∧
    ((Pat.word "build").matches (searchText "build the ui page" "" []) = true) ∧
    (findAgentByName [⟨1, "UI/UX Expert", "Design"⟩, ⟨2, "Coder", "Dev"⟩]
      "UI/UX Expert" = some ⟨1, "UI/UX Expert", "Design"⟩) ∧
    (findAgentByName [⟨1, "UI/UX Expert", "Design"⟩, ⟨2, "Coder", "Dev"⟩]
      "Coder" = some ⟨2, "Coder", "Dev"⟩) ∧
    autoAssignAgent [⟨1, "UI/UX Expert", "Design"⟩, ⟨2, "Coder", "Dev"⟩]
      "build the ui page" "" [] = some 1 :=
  ⟨by decide, by decide, by decide, by decide,
   (autoAssign_uiux_before_coder
     [⟨1, "UI/UX Expert", "Design"⟩, ⟨2, "Coder", "Dev"⟩]
     "build the ui page" "" [] ⟨1, "UI/UX Expert", "Design"⟩
     ⟨2, "Coder", "Dev"⟩ (by decide) (by decide) (by decide) (by decide)).1⟩

/-- C4 — Text matching no rule yields the "Theeb" fallback
(case-insensitive name-or-role lookup); when no such agent exists the
engine returns no assignment, and `createTaskWithAgent` then inserts
the task with an empty assignee list and still reports success. -/
theorem autoAssign_fallback_theeb (agents : List Agent) (store : TaskStore)
    (args : CreateArgs)
    (hnm : ∀ r ∈ AGENT_PATTERNS, r.patterns.any (fun p =>
      p.matches (searchText args.title args.description (args.tags.getD []))) = false)
    (hasg : args.assignee = none) :
    autoAssignAgent agents args.title args.description (args.tags.getD []) =
      (findAgentByName agents "Theeb").map (fun ag => ag.id) ∧
    (findAgentByName agents "Theeb" = none →
      (createTaskWithAgent agents store args).1.tasks =
        store.tasks ++
          [{ rid := store.nextId, title := args.title,
             description := args.description,
             status := jsOrStr args.status "inbox", assigneeIds := [],
             tags := args.tags.getD [],
             priority := jsOrStr args.priority "normal",
             projectId := args.projectId, objectiveId := args.objectiveId }] ∧
      (createTaskWithAgent agents store args).2.success = true ∧
      (createTaskWithAgent agents store args).2.assignee = none) := by
  have hfind : AGENT_PATTERNS.find? (fun r =>
      r.patterns.any (fun p =>
        p.matches (searchText args.title args.description (args.tags.getD []))) &&
      (findAgentByName agents r.agentName).isSome) = none := by
    rw [List.find?_eq_none]
    intro r hr
    rw [hnm r hr]
    simp
  have h1 : autoAssignAgent agents args.title args.description (args.tags.getD []) =
      (findAgentByName agents "Theeb").map (fun ag => ag.id) := by
    rw [autoAssign_first_resolvable_rule, hfind]
  refine ⟨h1, fun hth => ?_⟩
  have h2 : autoAssignAgent agents args.title args.description (args.tags.getD [])
      = none := by rw [h1, hth]; rfl
  unfold createTaskWithAgent
  rw [hasg]
  simp [truthy, h2]

/-- Witness for C4: no pattern matches `"zzz"`, the directory has no
"Theeb", and the created task has no assignee. -/
theorem autoAssign_fallback_theeb_witness :
    (∀ r ∈ AGENT_PATTERNS, r.patterns.any (fun p =>
      p.matches (searchText "zzz" "" ((none : Option (List String)).getD []))) =
        false) ∧
    ((none : Option String) = none) ∧
    (findAgentByName [⟨1, "Alice", "Wizard"⟩] "Theeb" = none) ∧
    (createTaskWithAgent [⟨1, "Alice", "Wizard"⟩] ⟨[], 5⟩
        ⟨"zzz", "", none, none, none, none, none, none⟩).1.tasks =
      [] ++ [{ rid := 5, title := "zzz", description := "",
               status := jsOrStr none "inbox", assigneeIds := [],
               tags := (none : Option (List String)).getD [],
               priority := jsOrStr none "normal",
               projectId := none, objectiveId := none }] :=
  ⟨by decide, rfl, by decide,
   ((autoAssign_fallback_theeb [⟨1, "Alice", "Wizard"⟩] ⟨[], 5⟩
      ⟨"zzz", "", none, none, none, none, none, none⟩
      (by decide) rfl).2 (by decide)).1⟩

/-! ## Objectives upsert: idempotence on the external identifier -/

/-- C5 — `syncObjectives` upserts by external id: on a store without
"OBJ-001" (and a fresh internal-id counter), a first sync of a payload
carrying "OBJ-001" reports `created = 1, updated = 0`; repeating the
identical payload reports `created = 0, updated = 1`; and exactly one
record with that external id exists afterwards. -/
theorem syncObjectives_idempotent (store : ObjStore) (o : ObjPayload)
    (hid : o.objectiveId = "OBJ-001")
    (habs : ∀ r ∈ store.objs, r.objectiveId ≠ "OBJ-001")
    (hfresh : ∀ r ∈ store.objs, r.rid ≠ store.nextId) :
    (syncObjectives store [o]).2.created = 1 ∧
    (syncObjectives store [o]).2.updated = 0 ∧
    (syncObjectives (syncObjectives store [o]).1 [o]).2.created = 0 ∧
    (syncObjectives (syncObjectives store [o]).1 [o]).2.updated = 1 ∧
    ((syncObjectives (syncObjectives store [o]).1 [o]).1.objs.countP
      (fun r => r.objectiveId == "OBJ-001")) = 1 := by
  have hfind1 : store.objs.find? (fun r => r.objectiveId == o.objectiveId) = none := by
    rw [List.find?_eq_none]
    intro r hr
    simp [hid, habs r hr]
  have h1 : syncObjectives store [o] =
      (⟨store.objs ++
          [⟨store.nextId, o.objectiveId, o.title, o.description, o.status,
            o.progress, o.priority, o.targetDate, o.completedDate, o.blockers,
            o.tenantId⟩],
        store.nextId + 1⟩,
       ⟨1, 0, [o.objectiveId]⟩) := by
    simp [syncObjectives, syncObjStep, hfind1]
  set newRec : ObjRec :=
    ⟨store.nextId, o.objectiveId, o.title, o.description, o.status,
     o.progress, o.priority, o.targetDate, o.completedDate, o.blockers,
     o.tenantId⟩ with hnew
  have hfind2 : (store.objs ++ [newRec]).find?
      (fun r => r.objectiveId == o.objectiveId) = some newRec := by
    rw [List.find?_append, hfind1]
    simp
  have h2 : syncObjectives (syncObjectives store [o]).1 [o] =
      (⟨(store.objs ++ [newRec]).map (fun r =>
          if r.rid == newRec.rid then
            { r with title := o.title, description := o.description,
                     status := o.status, progress := o.progress,
                     priority := o.priority, targetDate := o.targetDate,
                     completedDate := o.completedDate, blockers := o.blockers,
                     tenantId := o.tenantId }
          else r),
        store.nextId + 1⟩,
       ⟨0, 1, [o.objectiveId]⟩) := by
    rw [h1]
    simp [syncObjectives, syncObjStep, hfind2]
  have hmap : (store.objs ++ [newRec]).map (fun r =>
      if r.rid == newRec.rid then
        { r with title := o.title, description := o.description,
                 status := o.status, progress := o.progress,
                 priority := o.priority, targetDate := o.targetDate,
                 completedDate := o.completedDate, blockers := o.blockers,
                 tenantId := o.tenantId }
      else r) =
      store.objs ++
        [{ newRec with title := o.title, description := o.description,
                       status := o.status, progress := o.progress,
                       priority := o.priority, targetDate := o.targetDate,
                       completedDate := o.completedDate, blockers := o.blockers,
                       tenantId := o.tenantId }] := by
    rw [List.map_append]
    congr 1
    · have hid' : ∀ r ∈ store.objs, (if (r.rid == newRec.rid) = true then
          ({ r with title := o.title, description := o.description,
                    status := o.status, progress := o.progress,
                    priority := o.priority, targetDate := o.targetDate,
                    completedDate := o.completedDate, blockers := o.blockers,
                    tenantId := o.tenantId } : ObjRec)
          else r) = id r := by
        intro r hr
        have : r.rid ≠ newRec.rid := by
          simpa [hnew] using hfresh r hr
        simp [this]
      rw [List.map_congr_left hid', List.map_id]
    · simp
  refine ⟨by rw [h1], by rw [h1], by rw [h2], by rw [h2], ?_⟩
  rw [h2]
  simp only [hmap, List.countP_append]
  have hz : store.objs.countP (fun r => r.objectiveId == "OBJ-001") = 0 := by
    rw [List.countP_eq_zero]
    intro r hr
    simp [habs r hr]
  rw [hz]
  simp [hid]

/-- Witness for C5 at a concrete store and payload. -/
theorem syncObjectives_idempotent_witness :
    (("OBJ-001" : String) = "OBJ-001") ∧
    (∀ r ∈ [(⟨0, "OBJ-900", "t", "d", "active", 0, "P1", none, none, none,
        none⟩ : ObjRec)], r.objectiveId ≠ "OBJ-001") ∧
    (syncObjectives
        ⟨[⟨0, "OBJ-900", "t", "d", "active", 0, "P1", none, none, none, none⟩], 1⟩
        [⟨"OBJ-001", "Title", "Desc", "active", 40, "P0", none, none, none,
          none⟩]).2.created = 1 :=
  ⟨rfl, by decide,
   (syncObjectives_idempotent
     ⟨[⟨0, "OBJ-900", "t", "d", "active", 0, "P1", none, none, none, none⟩], 1⟩
     ⟨"OBJ-001", "Title", "Desc", "active", 40, "P0", none, none, none, none⟩
     rfl (by decide) (by decide)).1⟩

/-! ## Planner state: structural singleton -/

/-- Patching the single existing planner-state record keeps the table
at one record and reports `"updated"`. -/
theorem syncPlannerState_of_one (s : PStore) (a : PArgs)
    (h : s.recs.length = 1) :
    (syncPlannerState s a).1.recs.length = 1 ∧
    (syncPlannerState s a).2 = "updated" := by
  cases hr : s.recs with
  | nil => rw [hr] at h; simp at h
  | cons r rest =>
    rw [hr] at h
    simp only [List.length_cons] at h
    have hrest : rest.length = 0 := by omega
    constructor
    · simp [syncPlannerState, hr, hrest]
    · simp [syncPlannerState, hr]

/-- After any run starting from a one-record store, every action is
`"updated"` and the table still holds one record. -/
theorem runPlannerSyncs_of_one (calls : List PArgs) :
    ∀ s : PStore, s.recs.length = 1 →
    (runPlannerSyncs s calls).1.recs.length = 1 ∧
    (runPlannerSyncs s calls).2 = List.replicate calls.length "updated" := by
  induction calls with
  | nil => intro s h; simpa [runPlannerSyncs] using h
  | cons a rest ih =>
    intro s h
    obtain ⟨h1, h2⟩ := syncPlannerState_of_one s a h
    obtain ⟨h3, h4⟩ := ih (syncPlannerState s a).1 h1
    simp [runPlannerSyncs, h2, h3, h4, List.replicate_succ]

/-- C8 — The planner state is a structural singleton: starting from an
empty store, any call sequence leaves `min n 1` records (at most one);
the first call reports `"created"` and every later call `"updated"`. -/
theorem plannerState_singleton (calls : List PArgs) :
    (runPlannerSyncs emptyPStore calls).1.recs.length = min calls.length 1 ∧
    (runPlannerSyncs emptyPStore calls).2 =
      (match calls with
       | [] => []
       | _ :: rest => "created" :: List.replicate rest.length "updated") := by
  cases calls with
  | nil => simp [runPlannerSyncs, emptyPStore]
  | cons a rest =>
    have hfirst : syncPlannerState emptyPStore a =
        (⟨[⟨0, a.status, a.lastRun, a.iterationCount, a.costToday,
            a.costResetDate, a.currentObjective, a.nextTask,
            a.waitingApproval, a.tenantId⟩], 1⟩, "created") := by
      simp [syncPlannerState, emptyPStore]
    have hone : (syncPlannerState emptyPStore a).1.recs.length = 1 := by
      simp [hfirst]
    obtain ⟨h3, h4⟩ := runPlannerSyncs_of_one rest _ hone
    constructor
    · simp [runPlannerSyncs, h3]
    · simp [runPlannerSyncs, h4]
      rw [hfirst]

/-! ## `updateStatusByExternalId`: frame property -/

/-- C10 — When a task's title contains the external id, the mutation
rewrites exactly that (first-found) task, changing only its `status`
(normalised) and — only when the optional assignee resolves — its
`assigneeIds`; every other field and every other task is untouched,
and an unresolvable assignee name leaves the assignee list unchanged
rather than clearing it. -/
theorem updateStatusByExternalId_frame (agents : List Agent)
    (tasks : List TaskRec) (activities : List Activity) (args : UpdArgs)
    (t : TaskRec)
    (hnd : (tasks.map (fun x => x.rid)).Nodup)
    (hft : tasks.find? (fun x => strContains x.title args.taskId) = some t) :
    (updateStatusByExternalId agents tasks activities args).1 =
      tasks.map (fun u =>
        if u = t then
          { u with status := normalizeStatus args.status,
                   assigneeIds :=
                     resolveAssignees agents args.assignee u.assigneeIds }
        else u) ∧
    (∀ s, args.assignee = some s → s ≠ "" →
      agents.find? (fun a =>
        lowerStr a.name == lowerStr s || lowerStr a.role == lowerStr s) = none →
      resolveAssignees agents args.assignee t.assigneeIds = t.assigneeIds) := by
  have htmem : t ∈ tasks := List.mem_of_find?_eq_some hft
  constructor
  · unfold updateStatusByExternalId
    rw [hft]
    simp only
    apply List.map_congr_left
    intro u hu
    by_cases he : u = t
    · subst he
      simp
    · have hne : u.rid ≠ t.rid := fun hr =>
        he (List.inj_on_of_nodup_map hnd hu htmem hr)
      simp [hne, he]
  · intro s hs hne hfind
    simp [resolveAssignees, hs, truthy, hne, hfind]

/-- Witness for C10: the external id matches the first task, the
assignee name resolves to nobody, and only that task's status
changes. -/
theorem updateStatusByExternalId_frame_witness :
    (([(⟨1, "SAAS-SPEC-001 build", "d", "inbox", [9], ["x"], "high", none,
        none⟩ : TaskRec),
       ⟨2, "other", "", "inbox", [], [], "normal", none, none⟩].map
        (fun x => x.rid)).Nodup) ∧
    ([(⟨1, "SAAS-SPEC-001 build", "d", "inbox", [9], ["x"], "high", none,
        none⟩ : TaskRec),
      ⟨2, "other", "", "inbox", [], [], "normal", none, none⟩].find?
        (fun x => strContains x.title "SPEC-001") =
      some ⟨1, "SAAS-SPEC-001 build", "d", "inbox", [9], ["x"], "high", none,
        none⟩) ∧
    (updateStatusByExternalId [⟨7, "Analyst", "Analyst"⟩]
        [⟨1, "SAAS-SPEC-001 build", "d", "inbox", [9], ["x"], "high", none,
          none⟩,
         ⟨2, "other", "", "inbox", [], [], "normal", none, none⟩]
        [] ⟨"SPEC-001", "IN_PROGRESS", some "nosuch"⟩).1 =
      [⟨1, "SAAS-SPEC-001 build", "d", "in_progress", [9], ["x"], "high", none,
        none⟩,
       ⟨2, "other", "", "inbox", [], [], "normal", none, none⟩] := by
  refine ⟨by decide, by decide, ?_⟩
  have h := (updateStatusByExternalId_frame [⟨7, "Analyst", "Analyst"⟩]
    [⟨1, "SAAS-SPEC-001 build", "d", "inbox", [9], ["x"], "high", none, none⟩,
     ⟨2, "other", "", "inbox", [], [], "normal", none, none⟩]
    [] ⟨"SPEC-001", "IN_PROGRESS", some "nosuch"⟩
    ⟨1, "SAAS-SPEC-001 build", "d", "inbox", [9], ["x"], "high", none, none⟩
    (by decide) (by decide)).1
  rw [h]
  decide

/-! ## `fixUnassignedTasks`: idempotence -/

/-- Store projection of the fix loop. -/
theorem fixFold_fst (agents : List Agent) (us : List TaskRec) :
    ∀ (ts : List TaskRec) (rs : List FixItem),
    (us.foldl (fixStep agents) (ts, rs)).1 = applyFixes agents us ts := by
  induction us with
  | nil => intro ts rs; rfl
  | cons u us ih =>
    intro ts rs
    simp only [List.foldl_cons, fixStep, applyFixes]
    cases h : autoAssignAgent agents u.title u.description u.tags with
    | some i => simp only [h, ih, applyFixes, List.foldl_cons]
    | none => simp only [h, ih, applyFixes, List.foldl_cons]

/-- Report projection of the fix loop. -/
theorem fixFold_snd (agents : List Agent) (us : List TaskRec) :
    ∀ (ts : List TaskRec) (rs : List FixItem),
    (us.foldl (fixStep agents) (ts, rs)).2 = rs ++ us.map (fixReport agents) := by
  induction us with
  | nil => intro ts rs; simp
  | cons u us ih =>
    intro ts rs
    simp only [List.foldl_cons, fixStep, fixReport, List.map_cons]
    cases h : autoAssignAgent agents u.title u.description u.tags with
    | some i => rw [ih]; simp [h]
    | none => rw [ih]; simp [h]

/-- Pointwise description of the fix-loop patches. -/
theorem applyFixes_getElem (agents : List Agent) (us : List TaskRec) :
    ∀ (ts : List TaskRec) (i : Nat),
    (applyFixes agents us ts)[i]? = (ts[i]?).map (fixOne agents us) := by
  induction us with
  | nil =>
    intro ts i
    simp only [applyFixes, List.foldl_nil]
    cases ts[i]? <;> simp [fixOne]
  | cons u us ih =>
    intro ts i
    cases h : autoAssignAgent agents u.title u.description u.tags with
    | some a =>
      have hl : applyFixes agents (u :: us) ts =
          applyFixes agents us (patchAssignees ts u.rid [a]) := by
        simp only [applyFixes, List.foldl_cons, h]
      rw [hl, ih, patchAssignees, List.getElem?_map]
      cases hv : ts[i]? with
      | none => simp
      | some v => simp [fixOne, h]
    | none =>
      have hl : applyFixes agents (u :: us) ts = applyFixes agents us ts := by
        simp only [applyFixes, List.foldl_cons, h]
      rw [hl, ih]
      cases hv : ts[i]? with
      | none => simp
      | some v => simp [fixOne, h]

/-- A record whose id matches no patched task is left untouched. -/
theorem fixOne_of_disjoint (agents : List Agent) (us : List TaskRec) :
    ∀ t : TaskRec, (∀ u ∈ us, t.rid ≠ u.rid) → fixOne agents us t = t := by
  induction us with
  | nil => intro t _; rfl
  | cons u us ih =>
    intro t h
    have hne : (t.rid == u.rid) = false := by
      simp [h u (List.mem_cons_self u us)]
    simp only [fixOne, List.foldl_cons, hne, Bool.false_eq_true, if_false]
    exact ih t (fun v hv => h v (List.mem_cons_of_mem u hv))

/-- The fix-loop patches never change a record's id. -/
theorem fixOne_rid (agents : List Agent) (us : List TaskRec) :
    ∀ t : TaskRec, (fixOne agents us t).rid = t.rid := by
  induction us with
  | nil => intro t; rfl
  | cons u us ih =>
    intro t
    simp only [fixOne, List.foldl_cons]
    by_cases hc : (t.rid == u.rid) = true
    · cases h : autoAssignAgent agents u.title u.description u.tags with
      | some a =>
        simp only [hc, if_true, h]
        exact ih { t with assigneeIds := [a] }
      | none => simp only [hc, if_true, h]; exact ih t
    · simp only [hc]
      simp only [Bool.not_eq_true] at hc
      simp only [hc, Bool.false_eq_true, if_false]
      exact ih t

/-- When every patched task with this record's id auto-assigns to `a`
and at least one such task exists, the record ends with `[a]`. -/
theorem fixOne_assigns (agents : List Agent) (us : List TaskRec) (a : Nat) :
    ∀ t : TaskRec,
    (∀ u ∈ us, u.rid = t.rid →
      autoAssignAgent agents u.title u.description u.tags = some a) →
    (∃ u ∈ us, u.rid = t.rid) →
    (fixOne agents us t).assigneeIds = [a] := by
  induction us with
  | nil => intro t _ h2; simp at h2
  | cons u us ih =>
    intro t h1 h2
    by_cases hc : u.rid = t.rid
    · have hval := h1 u (List.mem_cons_self u us) hc
      have hcb : (t.rid == u.rid) = true := by simp [hc]
      have hstep : fixOne agents (u :: us) t =
          fixOne agents us { t with assigneeIds := [a] } := by
        simp only [fixOne, List.foldl_cons, hcb, if_true, hval]
      rw [hstep]
      by_cases hex : ∃ v ∈ us, v.rid = t.rid
      · obtain ⟨v, hv, hvr⟩ := hex
        exact ih { t with assigneeIds := [a] }
          (fun w hw hwr => h1 w (List.mem_cons_of_mem u hw) hwr)
          ⟨v, hv, hvr⟩
      · have hall : ∀ v ∈ us, ({ t with assigneeIds := [a] } : TaskRec).rid ≠ v.rid := by
          intro v hv hr
          exact hex ⟨v, hv, hr.symm⟩
        rw [fixOne_of_disjoint agents us _ hall]
    · have hcb : (t.rid == u.rid) = false := by
        simp only [beq_eq_false_iff_ne, ne_eq]
        exact fun hx => hc hx.symm
      have hstep : fixOne agents (u :: us) t = fixOne agents us t := by
        simp only [fixOne, List.foldl_cons, hcb, Bool.false_eq_true, if_false]
      rw [hstep]
      obtain ⟨v, hv, hvr⟩ := h2
      have hvus : v ∈ us := by
        rcases List.mem_cons.mp hv with h | h
        · exact absurd (h ▸ hvr) hc
        · exact h
      exact ih t (fun w hw hwr => h1 w (List.mem_cons_of_mem u hw) hwr)
        ⟨v, hvus, hvr⟩

/-- C6 — The fix-unassigned maintenance operation only ever patches
tasks whose assignee list is empty (an already-assigned task is
returned unchanged at its position), and when the first run assigns
every unassigned task, an immediate second run reports
`totalUnassigned = 0` and `fixed = 0`. -/
theorem fixUnassignedTasks_idempotent (agents : List Agent)
    (tasks : List TaskRec)
    (hnd : (tasks.map (fun x => x.rid)).Nodup)
    (hall : ∀ t ∈ tasks, t.assigneeIds = [] →
      (autoAssignAgent agents t.title t.description t.tags).isSome = true) :
    (∀ i : Nat, ∀ u : TaskRec, tasks[i]? = some u → u.assigneeIds ≠ [] →
      (fixUnassignedTasks agents tasks).1[i]? = some u) ∧
    (fixUnassignedTasks agents
      (fixUnassignedTasks agents tasks).1).2.totalUnassigned = 0 ∧
    (fixUnassignedTasks agents (fixUnassignedTasks agents tasks).1).2.fixed = 0 := by
  have hinj : ∀ u ∈ tasks, ∀ v ∈ tasks, u.rid = v.rid → u = v :=
    fun u hu v hv h => List.inj_on_of_nodup_map hnd hu hv h
  have hfst : (fixUnassignedTasks agents tasks).1 =
      applyFixes agents (tasks.filter (fun t => t.assigneeIds.isEmpty)) tasks := by
    simp only [fixUnassignedTasks]
    exact fixFold_fst agents _ tasks []
  have hframe : ∀ i : Nat, ∀ u : TaskRec, tasks[i]? = some u →
      u.assigneeIds ≠ [] → (fixUnassignedTasks agents tasks).1[i]? = some u := by
    intro i u hu hne
    rw [hfst, applyFixes_getElem, hu]
    have hdisj : ∀ v ∈ tasks.filter (fun t => t.assigneeIds.isEmpty),
        u.rid ≠ v.rid := by
      intro v hv hr
      have hv' := List.mem_filter.mp hv
      have hveq : u = v := hinj u (List.getElem?_mem hu) v hv'.1 hr
      have : v.assigneeIds = [] := List.isEmpty_iff.mp hv'.2
      exact hne (hveq ▸ this)
    rw [Option.map_some', fixOne_of_disjoint agents _ u hdisj]
  refine ⟨hframe, ?_⟩
  have hall2 : ∀ w ∈ (fixUnassignedTasks agents tasks).1, w.assigneeIds ≠ [] := by
    intro w hw
    rw [hfst] at hw
    obtain ⟨i, hi⟩ := List.mem_iff_getElem?.mp hw
    rw [applyFixes_getElem] at hi
    cases ht : tasks[i]? with
    | none => rw [ht] at hi; simp at hi
    | some t =>
      rw [ht, Option.map_some', Option.some_inj] at hi
      have htm : t ∈ tasks := List.getElem?_mem ht
      by_cases hemp : t.assigneeIds = []
      · have htus : t ∈ tasks.filter (fun x => x.assigneeIds.isEmpty) :=
          List.mem_filter.mpr ⟨htm, by simp [hemp]⟩
        obtain ⟨a, ha⟩ := Option.isSome_iff_exists.mp (hall t htm hemp)
        have h1 : ∀ v ∈ tasks.filter (fun x => x.assigneeIds.isEmpty),
            v.rid = t.rid →
            autoAssignAgent agents v.title v.description v.tags = some a := by
          intro v hv hr
          have hveq : v = t := hinj v (List.mem_filter.mp hv).1 t htm hr
          rw [hveq, ha]
        have := fixOne_assigns agents _ a t h1 ⟨t, htus, rfl⟩
        rw [← hi, this]
        simp
      · have hdisj : ∀ v ∈ tasks.filter (fun x => x.assigneeIds.isEmpty),
            t.rid ≠ v.rid := by
          intro v hv hr
          have hv' := List.mem_filter.mp hv
          have hveq : t = v := hinj t htm v hv'.1 hr
          exact hemp (hveq ▸ List.isEmpty_iff.mp hv'.2)
        rw [← hi, fixOne_of_disjoint agents _ t hdisj]
        exact hemp
  set r1 := (fixUnassignedTasks agents tasks).1 with hr1
  have hus2 : r1.filter (fun t => t.assigneeIds.isEmpty) = [] := by
    rw [List.filter_eq_nil_iff]
    intro w hw
    simpa [List.isEmpty_iff] using hall2 w hw
  have hdone : fixUnassignedTasks agents r1 = (r1, ⟨0, 0, []⟩) := by
    simp [fixUnassignedTasks, hus2]
  rw [hdone]
  exact ⟨rfl, rfl⟩

/-- Witness for C6 at a concrete directory and task list. -/
theorem fixUnassignedTasks_idempotent_witness :
    (([(⟨1, "zzz", "", "inbox", [], [], "normal", none, none⟩ : TaskRec),
       ⟨2, "ui work", "", "inbox", [5], [], "normal", none, none⟩].map
        (fun x => x.rid)).Nodup) ∧
    (∀ t ∈ [(⟨1, "zzz", "", "inbox", [], [], "normal", none, none⟩ : TaskRec),
            ⟨2, "ui work", "", "inbox", [5], [], "normal", none, none⟩],
      t.assigneeIds = [] →
      (autoAssignAgent [⟨9, "Theeb", "Generalist"⟩] t.title t.description
        t.tags).isSome = true) ∧
    (fixUnassignedTasks [⟨9, "Theeb", "Generalist"⟩]
      (fixUnassignedTasks [⟨9, "Theeb", "Generalist"⟩]
        [⟨1, "zzz", "", "inbox", [], [], "normal", none, none⟩,
         ⟨2, "ui work", "", "inbox", [5], [], "normal", none,
          none⟩]).1).2.totalUnassigned = 0 :=
  ⟨by decide, by decide,
   (fixUnassignedTasks_idempotent [⟨9, "Theeb", "Generalist"⟩]
     [⟨1, "zzz", "", "inbox", [], [], "normal", none, none⟩,
      ⟨2, "ui work", "", "inbox", [5], [], "normal", none, none⟩]
     (by decide) (by decide)).2.1⟩

/-! ## Fanout lemmas: projections of the mention loop -/

/-- Notification/notified projections of the `@all` inner loop. -/
theorem allFold_proj (senderName : Option String) (title content : String)
    (senderId : Nat) (ags : List Agent) :
    ∀ st : MState,
    ((ags.foldl (fun st2 ag =>
        if ag.id != senderId then notifyTarget senderName title content st2 ag.id
        else st2) st).notifs =
      st.notifs ++ (ags.filter (fun ag => ag.id != senderId)).map
        (fun ag => (⟨ag.id, mentionMsg senderName title content⟩ : Notif))) ∧
    ((ags.foldl (fun st2 ag =>
        if ag.id != senderId then notifyTarget senderName title content st2 ag.id
        else st2) st).notified =
      st.notified ++ (ags.filter (fun ag => ag.id != senderId)).map
        (fun ag => ag.id)) := by
  induction ags with
  | nil => intro st; simp
  | cons ag ags ih =>
    intro st
    by_cases hs : (ag.id != senderId) = true
    · constructor
      · rw [List.foldl_cons, if_pos hs, (ih _).1, List.filter_cons]
        simp [hs, notifyTarget]
      · rw [List.foldl_cons, if_pos hs, (ih _).2, List.filter_cons]
        simp [hs, notifyTarget]
    · constructor
      · rw [List.foldl_cons, if_neg hs, (ih _).1, List.filter_cons]
        simp [hs]
      · rw [List.foldl_cons, if_neg hs, (ih _).2, List.filter_cons]
        simp [hs]

/-- Notification/notified projections of one mention iteration. -/
theorem mentionStep_proj (agents : List Agent) (senderId : Nat)
    (senderName : Option String) (title content : String) (st : MState)
    (m : String) :
    ((mentionStep agents senderId senderName title content st m).notifs =
      st.notifs ++ (mentionResolved agents senderId m).map
        (fun i => (⟨i, mentionMsg senderName title content⟩ : Notif))) ∧
    ((mentionStep agents senderId senderName title content st m).notified =
      st.notified ++ mentionResolved agents senderId m) := by
  unfold mentionStep mentionResolved
  by_cases hall : (lowerStr (trimStr m) == "all") = true
  · simp only [hall, if_true]
    obtain ⟨h1, h2⟩ := allFold_proj senderName title content senderId agents st
    constructor
    · rw [h1, List.map_map]
      rfl
    · rw [h2]
  · simp only [hall, Bool.false_eq_true, if_false]
    cases hf : mentionFind agents (trimStr m) with
    | none => simp
    | some ag =>
      by_cases hsid : (ag.id != senderId) = true
      · simp [hsid, notifyTarget]
      · simp [hsid]

/-- Notification/notified projections of the whole mention loop. -/
theorem mentionFold_proj (agents : List Agent) (senderId : Nat)
    (senderName : Option String) (title content : String) (ms : List String) :
    ∀ st : MState,
    ((ms.foldl (mentionStep agents senderId senderName title content) st).notifs =
      st.notifs ++ (mentionTargets agents senderId ms).map
        (fun i => (⟨i, mentionMsg senderName title content⟩ : Notif))) ∧
    ((ms.foldl (mentionStep agents senderId senderName title content) st).notified =
      st.notified ++ mentionTargets agents senderId ms) := by
  induction ms with
  | nil => intro st; simp [mentionTargets]
  | cons m ms ih =>
    intro st
    obtain ⟨hs1, hs2⟩ :=
      mentionStep_proj agents senderId senderName title content st m
    obtain ⟨ih1, ih2⟩ :=
      ih (mentionStep agents senderId senderName title content st m)
    constructor
    · rw [List.foldl_cons, ih1, hs1, mentionTargets]
      simp
    · rw [List.foldl_cons, ih2, hs2, mentionTargets]
      simp

/-- A mention token never resolves to the sender. -/
theorem mentionResolved_not_sender (agents : List Agent) (senderId : Nat)
    (m : String) : senderId ∉ mentionResolved agents senderId m := by
  unfold mentionResolved
  by_cases hall : (lowerStr (trimStr m) == "all") = true
  · simp only [hall, if_true]
    intro hmem
    obtain ⟨ag, hag, hid⟩ := List.mem_map.mp hmem
    have := (List.mem_filter.mp hag).2
    rw [hid] at this
    simp at this
  · simp only [hall, Bool.false_eq_true, if_false]
    cases hf : mentionFind agents (trimStr m) with
    | none => simp
    | some ag =>
      by_cases hsid : (ag.id != senderId) = true
      · simp only [hsid, if_true]
        intro hmem
        rw [List.mem_singleton] at hmem
        rw [hmem] at hsid
        simp at hsid
      · simp [hsid]

/-- No mention target is ever the sender. -/
theorem mentionTargets_not_sender (agents : List Agent) (senderId : Nat)
    (ms : List String) : senderId ∉ mentionTargets agents senderId ms := by
  induction ms with
  | nil => simp [mentionTargets]
  | cons m ms ih =>
    simp only [mentionTargets, List.mem_append]
    rintro (h | h)
    · exact mentionResolved_not_sender agents senderId m h
    · exact ih h

/-- Characterisation of every notification `send` inserts: the owner
tier over assignees, the mention tier over resolved targets, and the
subscriber tier over final subscribers that are neither the sender nor
in the `notifiedAgentIds` set (which records exactly the mention
targets). -/
theorem send_notifs (agents : List Agent) (task : TaskRec) (senderId : Nat)
    (content : String) (subs0 : List Nat) :
    (send agents task senderId content subs0).notifs =
      (if isOwnerSender agents senderId then
         (task.assigneeIds.filter (fun i => i != senderId)).map
           (fun i => (⟨i, samiMsg task.title⟩ : Notif))
       else []) ++
      (mentionTargets agents senderId (scanMentions content.toList)).map
        (fun i => (⟨i, mentionMsg
          ((agents.find? (fun x => x.id == senderId)).map (fun x => x.name))
          task.title content⟩ : Notif)) ++
      ((send agents task senderId content subs0).subs.filter
         (fun i => i != senderId &&
           !((mentionTargets agents senderId
               (scanMentions content.toList)).contains i))).map
        (fun i => (⟨i, subscribedMsg
          ((agents.find? (fun x => x.id == senderId)).map (fun x => x.name))
          task.title content⟩ : Notif)) := by
  obtain ⟨h1, h2⟩ := mentionFold_proj agents senderId
    ((agents.find? (fun x => x.id == senderId)).map (fun x => x.name))
    task.title content (scanMentions content.toList)
    ⟨[], [], if subs0.contains senderId then subs0 else subs0 ++ [senderId]⟩
  simp only [send]
  rw [h1, h2]
  simp

/-- Filtering a uniform-content notification batch by recipient. -/
theorem notif_filter_map (l : List Nat) (s : String) (a : Nat) :
    ((l.map (fun i => (⟨i, s⟩ : Notif))).filter (fun n => n.recipient == a)) =
      (l.filter (fun i => i == a)).map (fun i => (⟨i, s⟩ : Notif)) := by
  rw [List.filter_map]
  rfl

/-- C1 (amended) — When the owner posts a message on a task, an agent
that is both an assignee (once) and a resolved mention target (once)
receives exactly two notifications — the owner-tier "awaiting your
response" one and the mention one (the `notifiedAgentIds` set only
suppresses the subscriber tier, not the owner tier); the sender still
receives none. -/
theorem owner_and_mention_fanout_amended (agents : List Agent) (task : TaskRec)
    (senderId a : Nat) (content : String) (subs0 : List Nat)
    (howner : isOwnerSender agents senderId = true)
    (hane : a ≠ senderId)
    (hassign : task.assigneeIds.count a = 1)
    (hmention : (mentionTargets agents senderId
      (scanMentions content.toList)).count a = 1) :
    (((send agents task senderId content subs0).notifs.filter
        (fun n => n.recipient == a)).map (fun n => n.content)) =
      [samiMsg task.title,
       mentionMsg ((agents.find? (fun x => x.id == senderId)).map
         (fun x => x.name)) task.title content] ∧
    (send agents task senderId content subs0).notifs.filter
      (fun n => n.recipient == senderId) = [] := by
  have hmem : a ∈ mentionTargets agents senderId (scanMentions content.toList) :=
    List.count_pos_iff.mp (by rw [hmention]; omega)
  constructor
  · rw [send_notifs, howner, if_pos rfl]
    rw [List.filter_append, List.filter_append, List.map_append, List.map_append]
    have hp1 : ((task.assigneeIds.filter (fun i => i != senderId)).map
        (fun i => (⟨i, samiMsg task.title⟩ : Notif))).filter
          (fun n => n.recipient == a) = [⟨a, samiMsg task.title⟩] := by
      rw [notif_filter_map, List.filter_filter]
      have heq : task.assigneeIds.filter (fun i => (i == a) && (i != senderId)) =
          task.assigneeIds.filter (fun i => i == a) := by
        apply List.filter_congr
        intro i _
        by_cases hia : (i == a) = true
        · have hi : i = a := by simpa using hia
          subst hi
          simp [hane]
        · simp [hia]
      rw [heq, List.filter_beq, hassign]
      rfl
    have hp2 : ((mentionTargets agents senderId
        (scanMentions content.toList)).map
        (fun i => (⟨i, mentionMsg ((agents.find? (fun x => x.id == senderId)).map
          (fun x => x.name)) task.title content⟩ : Notif))).filter
          (fun n => n.recipient == a) =
        [⟨a, mentionMsg ((agents.find? (fun x => x.id == senderId)).map
          (fun x => x.name)) task.title content⟩] := by
      rw [notif_filter_map, List.filter_beq, hmention]
      rfl
    have hp3 : (((send agents task senderId content subs0).subs.filter
        (fun i => i != senderId &&
          !((mentionTargets agents senderId
              (scanMentions content.toList)).contains i))).map
        (fun i => (⟨i, subscribedMsg ((agents.find? (fun x => x.id == senderId)).map
          (fun x => x.name)) task.title content⟩ : Notif))).filter
          (fun n => n.recipient == a) = [] := by
      rw [notif_filter_map]
      have : ((send agents task senderId content subs0).subs.filter
          (fun i => i != senderId &&
            !((mentionTargets agents senderId
                (scanMentions content.toList)).contains i))).filter
            (fun i => i == a) = [] := by
        rw [List.filter_eq_nil_iff]
        intro i hi
        have hq := (List.mem_filter.mp hi).2
        intro hia
        have hieq : i = a := by simpa using hia
        subst hieq
        have : ¬ ((mentionTargets agents senderId
            (scanMentions content.toList)).contains i) = true := by
          rcases Bool.and_eq_true _ _ |>.mp hq with ⟨_, hnc⟩
          simpa using hnc
        exact this (List.elem_eq_true_of_mem hmem)
      rw [this]
      rfl
    rw [hp1, hp2, hp3]
    simp
  · rw [send_notifs, howner, if_pos rfl]
    rw [List.filter_append, List.filter_append]
    have hp1 : ((task.assigneeIds.filter (fun i => i != senderId)).map
        (fun i => (⟨i, samiMsg task.title⟩ : Notif))).filter
          (fun n => n.recipient == senderId) = [] := by
      rw [notif_filter_map, List.filter_filter]
      have hnil : task.assigneeIds.filter
          (fun i => i == senderId && i != senderId) = [] := by
        rw [List.filter_eq_nil_iff]
        intro i _
        by_cases h : (i == senderId) = true
        · have hi : i = senderId := by simpa using h
          simp [hi]
        · simp [h]
      rw [hnil]
      rfl
    have hp2 : ((mentionTargets agents senderId
        (scanMentions content.toList)).map
        (fun i => (⟨i, mentionMsg ((agents.find? (fun x => x.id == senderId)).map
          (fun x => x.name)) task.title content⟩ : Notif))).filter
          (fun n => n.recipient == senderId) = [] := by
      rw [notif_filter_map]
      have : (mentionTargets agents senderId
          (scanMentions content.toList)).filter (fun i => i == senderId) = [] := by
        rw [List.filter_eq_nil_iff]
        intro i hi hieq
        have hie : i = senderId := by simpa using hieq
        exact mentionTargets_not_sender agents senderId _ (hie ▸ hi)
      rw [this]
      rfl
    have hp3 : (((send agents task senderId content subs0).subs.filter
        (fun i => i != senderId &&
          !((mentionTargets agents senderId
              (scanMentions content.toList)).contains i))).map
        (fun i => (⟨i, subscribedMsg ((agents.find? (fun x => x.id == senderId)).map
          (fun x => x.name)) task.title content⟩ : Notif))).filter
          (fun n => n.recipient == senderId) = [] := by
      rw [notif_filter_map]
      have : ((send agents task senderId content subs0).subs.filter
          (fun i => i != senderId &&
            !((mentionTargets agents senderId
                (scanMentions content.toList)).contains i))).filter
            (fun i => i == senderId) = [] := by
        rw [List.filter_eq_nil_iff]
        intro i hi hieq
        have hie : i = senderId := by simpa using hieq
        have hq := (List.mem_filter.mp hi).2
        rcases Bool.and_eq_true _ _ |>.mp hq with ⟨hs, _⟩
        rw [hie] at hs
        simp at hs
      rw [this]
      rfl
    rw [hp1, hp2, hp3]
    simp

/-- Witness for C1's amended statement at a concrete scenario (owner
"Sami" posts `"@Alice"` on a task assigned to Alice). -/
theorem owner_and_mention_fanout_amended_witness :
    (isOwnerSender [⟨1, "Sami", "Owner"⟩, ⟨2, "Alice", "Coder"⟩] 1 = true) ∧
    ((2 : Nat) ≠ 1) ∧
    (([2] : List Nat).count 2 = 1) ∧
    ((mentionTargets [⟨1, "Sami", "Owner"⟩, ⟨2, "Alice", "Coder"⟩] 1
      (scanMentions "@Alice".toList)).count 2 = 1) ∧
    (((send [⟨1, "Sami", "Owner"⟩, ⟨2, "Alice", "Coder"⟩]
        ⟨10, "T", "d", "inbox", [2], [], "normal", none, none⟩ 1 "@Alice"
        []).notifs.filter (fun n => n.recipient == 2)).map
          (fun n => n.content)) =
      [samiMsg "T",
       mentionMsg (([⟨1, "Sami", "Owner"⟩,
         ⟨2, "Alice", "Coder"⟩] : List Agent).find?
           (fun x => x.id == 1) |>.map (fun x => x.name)) "T" "@Alice"] :=
  ⟨by decide, by decide, by decide, by decide,
   (owner_and_mention_fanout_amended [⟨1, "Sami", "Owner"⟩, ⟨2, "Alice", "Coder"⟩]
     ⟨10, "T", "d", "inbox", [2], [], "normal", none, none⟩ 1 2 "@Alice" []
     (by decide) (by decide) (by decide) (by decide)).1⟩

/-- C1 (counterexample) — With the owner as sender, an agent that is
both the task's assignee and the message's resolved mention target
receives two notifications for the one message (the owner-commented
one and the mention one), not exactly one: the fanout's
already-notified set is created only after the owner tier ran and is
never consulted by the mention tier. -/
theorem owner_mention_double_notification :
    ((send [⟨1, "Sami", "Owner"⟩, ⟨2, "Alice", "Coder"⟩]
        ⟨10, "T", "d", "inbox", [2], [], "normal", none, none⟩ 1 "@Alice"
        []).notifs.filter (fun n => n.recipient == 2)).length = 2 ∧
    ¬ (((send [⟨1, "Sami", "Owner"⟩, ⟨2, "Alice", "Coder"⟩]
        ⟨10, "T", "d", "inbox", [2], [], "normal", none, none⟩ 1 "@Alice"
        []).notifs.filter (fun n => n.recipient == 2)).length = 1) ∧
    (send [⟨1, "Sami", "Owner"⟩, ⟨2, "Alice", "Coder"⟩]
        ⟨10, "T", "d", "inbox", [2], [], "normal", none, none⟩ 1 "@Alice"
        []).notifs =
      [⟨2, samiMsg "T"⟩, ⟨2, mentionMsg (some "Sami") "T" "@Alice"⟩] := by
  refine ⟨by decide, by decide, by decide⟩

/-- C2 — Posting `"@all please review"` notifies nobody: the mention
regex greedily parses the token as the two-word name `"all please"`,
so the `@all` wildcard branch is skipped and no agent matches; only
the sender gets auto-subscribed.  Posting plain `"@all"` does fan out
to every agent except the sender, confirming the wildcard branch
itself works. -/
theorem send_at_all_please_review :
    (send [⟨1, "Planner", "Planner"⟩, ⟨2, "Alice", "Coder"⟩, ⟨3, "Bob", "Tester"⟩]
      ⟨10, "T", "d", "inbox", [], [], "normal", none, none⟩ 1
      "@all please review" []).notifs = [] ∧
    (send [⟨1, "Planner", "Planner"⟩, ⟨2, "Alice", "Coder"⟩, ⟨3, "Bob", "Tester"⟩]
      ⟨10, "T", "d", "inbox", [], [], "normal", none, none⟩ 1
      "@all please review" []).subs = [1] ∧
    scanMentions "@all please review".toList = ["all please"] ∧
    (send [⟨1, "Planner", "Planner"⟩, ⟨2, "Alice", "Coder"⟩, ⟨3, "Bob", "Tester"⟩]
      ⟨10, "T", "d", "inbox", [], [], "normal", none, none⟩ 1
      "@all" []).notifs =
      [⟨2, mentionMsg (some "Planner") "T" "@all"⟩,
       ⟨3, mentionMsg (some "Planner") "T" "@all"⟩] ∧
    (send [⟨1, "Planner", "Planner"⟩, ⟨2, "Alice", "Coder"⟩, ⟨3, "Bob", "Tester"⟩]
      ⟨10, "T", "d", "inbox", [], [], "normal", none, none⟩ 1
      "@all" []).subs = [1, 2, 3] := by
  refine ⟨by decide, by decide, by decide, by decide, by decide⟩

/-! ## Webhook error-body shapes -/

/-- C7 (counterexample) — The `/documents/upload` route's 400
validation response carries only the error string: its body has no
`success` field at all, contradicting the uniform
`{success:false, error}` shape. -/
theorem documentsUpload_error_body_no_success :
    (documentsUploadRoute [⟨1, "Alice", "Coder"⟩] [] ⟨[], 0⟩
      (.ok ⟨none, some "c", some "t", none, none, none⟩)).1.status = 400 ∧
    ((documentsUploadRoute [⟨1, "Alice", "Coder"⟩] [] ⟨[], 0⟩
      (.ok ⟨none, some "c", some "t", none, none, none⟩)).1.body.lookup
        "success") = none ∧
    ((documentsUploadRoute [⟨1, "Alice", "Coder"⟩] [] ⟨[], 0⟩
      (.ok ⟨none, some "c", some "t", none, none, none⟩)).1.body.lookup
        "error") =
      some (.str "Missing required fields: title, content, type") :=
  ⟨rfl, rfl, rfl⟩

/-- C7 (amended) — Every error outcome (400/404/500) of `/tasks/update`
returns the uniform `{success:false, error:<string>}` body, but the
`/documents/upload` route's error outcomes return `{error:<string>}`
without a `success` field. -/
theorem route_error_body_shapes (agents : List Agent) (tasks : List TaskRec)
    (activities : List Activity) (docs : DocStore)
    (treq : Except String TUBody) (dreq : Except String DUBody) :
    ((tasksUpdateRoute agents tasks activities treq).1.status ≠ 200 →
      ∃ e, (tasksUpdateRoute agents tasks activities treq).1.body =
        Json.obj [("success", Json.bool false), ("error", Json.str e)]) ∧
    ((documentsUploadRoute agents tasks docs dreq).1.status ≠ 200 →
      ∃ e, (documentsUploadRoute agents tasks docs dreq).1.body =
        Json.obj [("error", Json.str e)] ∧
        (documentsUploadRoute agents tasks docs dreq).1.body.lookup
          "success" = none) := by
  constructor
  · intro hne
    cases treq with
    | error m => exact ⟨m, rfl⟩
    | ok b =>
      simp only [tasksUpdateRoute] at hne ⊢
      by_cases h1 : (!(truthy b.taskId) || !(truthy b.status)) = true
      · rw [if_pos h1]
        exact ⟨"Missing required fields: taskId and status", rfl⟩
      · rw [if_neg h1] at hne ⊢
        by_cases h2 : (!(validStatuses.contains (b.status.getD ""))) = true
        · rw [if_pos h2]
          exact ⟨"Invalid status. Valid values: " ++
            joinSep ", " validStatuses, rfl⟩
        · rw [if_neg h2] at hne ⊢
          cases hr : (updateStatusByExternalId agents tasks activities
              ⟨b.taskId.getD "", b.status.getD "", b.assignee⟩).2.2 with
          | notFound e =>
            simp only [hr]
            exact ⟨e, rfl⟩
          | ok x y z =>
            rw [hr] at hne
            exact absurd rfl hne
  · intro hne
    cases dreq with
    | error m => exact ⟨m, rfl, rfl⟩
    | ok b =>
      simp only [documentsUploadRoute] at hne ⊢
      by_cases hv : (!(truthy b.title) || !(truthy b.content) ||
          !(truthy b.type)) = true
      · rw [if_pos hv]
        exact ⟨"Missing required fields: title, content, type", rfl, rfl⟩
      · rw [if_neg hv] at hne ⊢
        cases hag : uploadAgent agents b.agentName with
        | none =>
          simp only [hag]
          exact ⟨"No agents found", rfl, rfl⟩
        | some ag =>
          rw [hag] at hne
          exact absurd rfl hne

/-- Witness for C7's amended statement on 500 (parse-failure) inputs. -/
theorem route_error_body_shapes_witness :
    ((tasksUpdateRoute [] [] [] (.error "boom")).1.status ≠ 200) ∧
    (∃ e, (tasksUpdateRoute [] [] [] (.error "boom")).1.body =
      Json.obj [("success", Json.bool false), ("error", Json.str e)]) ∧
    ((documentsUploadRoute [] [] ⟨[], 0⟩ (.error "crash")).1.status ≠ 200) ∧
    (∃ e, (documentsUploadRoute [] [] ⟨[], 0⟩ (.error "crash")).1.body =
      Json.obj [("error", Json.str e)] ∧
      (documentsUploadRoute [] [] ⟨[], 0⟩ (.error "crash")).1.body.lookup
        "success" = none) :=
  ⟨by decide,
   (route_error_body_shapes [] [] [] ⟨[], 0⟩ (.error "boom")
     (.error "crash")).1 (by decide),
   by decide,
   (route_error_body_shapes [] [] [] ⟨[], 0⟩ (.error "boom")
     (.error "crash")).2 (by decide)⟩

end MissionControl
